import Mathlib

/-!
Verification of the "Criador Mental" client-side editor core against its
specification.  The definitions below are a shallow embedding of the
TypeScript source (src/unnamed/part_000): the document model (`Page`,
`Snapshot`), the undo/redo history reducer (`appReducer`'s
UPDATE_EDITOR_STATE / UNDO / REDO cases), the prompt composition and
generation orchestration (`generateMindMap`), and the page handlers
(`handleSaveVersion`, `handleDeletePage`).
-/

/-- A page of the document (source: `interface Page`, lines 46-55).  The
runtime-only rendering handle `backgroundImageRef` is omitted: it is a DOM
cache, not document content, and it is spread unchanged through every state
update, so it never distinguishes two states compared by the reducer. -/
structure Page where
  id : String
  name : String
  keywords : List String
  instructions : List String
  generatedImage : Option String
  versions : List String
  contextPageIds : List String
deriving DecidableEq

/-- The unit of undo/redo (`{ pages, activePageIndex }`). -/
structure Snapshot where
  pages : List Page
  activePageIndex : Nat
deriving DecidableEq

/-- The payload of an UPDATE_EDITOR_STATE action: a partial snapshot, a JS
object that may carry either field (`Partial` of the snapshot type). -/
structure EditorPayload where
  pages : Option (List Page)
  activePageIndex : Option Nat
deriving DecidableEq

/-- The JS spread `{...present, ...payload}`: a field present in the payload
overrides the field of `present`. -/
def mergeSnapshot (present : Snapshot) (payload : EditorPayload) : Snapshot :=
  { pages := payload.pages.getD present.pages
    activePageIndex := payload.activePageIndex.getD present.activePageIndex }

/-- The editor history (`state.editor`): `past` ordered oldest to newest,
`future` nearest to farthest. -/
structure History where
  past : List Snapshot
  present : Snapshot
  future : List Snapshot
deriving DecidableEq

/-- The UPDATE_EDITOR_STATE case of `appReducer` (lines 1485-1501).  The
source compares `JSON.stringify(present)` with
`JSON.stringify({...present, ...action.payload})`; for the modelled record
(fixed key order, string/number/array/null leaves) that comparison holds
exactly when the merged snapshot is structurally equal to `present`.  On
equality the whole state is returned unchanged; otherwise `present` is pushed
onto `past`, the merge becomes `present` and `future` is cleared.  The
reducer threads the rest of the application state through unchanged, so the
embedding acts on the history alone. -/
def updateEditorState (h : History) (payload : EditorPayload) : History :=
  if mergeSnapshot h.present payload = h.present then h
  else
    { past := h.past ++ [h.present]
      present := mergeSnapshot h.present payload
      future := [] }

/-- The UNDO case of `appReducer` (lines 1502-1515): no-op on empty `past`,
otherwise the last element of `past` becomes `present` and the old `present`
is pushed onto the front of `future`. -/
def undo (h : History) : History :=
  match h.past.getLast? with
  | none => h
  | some previous =>
    { past := h.past.dropLast
      present := previous
      future := h.present :: h.future }

/-- The REDO case of `appReducer` (lines 1516-1529): no-op on empty `future`,
otherwise the first element of `future` becomes `present` and the old
`present` is appended to `past`. -/
def redo (h : History) : History :=
  match h.future with
  | [] => h
  | next :: rest =>
    { past := h.past ++ [h.present]
      present := next
      future := rest }

/-- A sequence of UPDATE_EDITOR_STATE actions applied in order. -/
def applyCommits (h : History) (payloads : List EditorPayload) : History :=
  payloads.foldl updateEditorState h

/-- Whether every commit of the sequence is successful, i.e. takes the push
branch of `updateEditorState` (its merge differs from the then-current
`present`). -/
def commitsSucceed : History → List EditorPayload → Bool
  | _, [] => true
  | h, u :: us =>
    (mergeSnapshot h.present u != h.present) && commitsSucceed (updateEditorState h u) us

lemma redo_undo (h : History) (hp : h.past ≠ []) : redo (undo h) = h := by
  cases hl : h.past.getLast? with
  | none => exact absurd (List.getLast?_eq_none_iff.mp hl) hp
  | some previous =>
    simp only [undo, hl, redo]
    have hconc : h.past.dropLast ++ [previous] = h.past :=
      List.dropLast_append_getLast? previous (Option.mem_def.mpr hl)
    simp [hconc]

lemma undo_past_length (h : History) (hp : h.past ≠ []) :
    (undo h).past.length = h.past.length - 1 := by
  cases hl : h.past.getLast? with
  | none => exact absurd (List.getLast?_eq_none_iff.mp hl) hp
  | some previous => simp [undo, hl, List.length_dropLast]

lemma undo_iterate_past_length (n : ℕ) (h : History) (hn : n ≤ h.past.length) :
    (undo^[n] h).past.length = h.past.length - n := by
  induction n with
  | zero => simp
  | succ k ih =>
    rw [Function.iterate_succ_apply']
    have hk : k ≤ h.past.length := Nat.le_of_succ_le hn
    have hpos : 0 < (undo^[k] h).past.length := by
      rw [ih hk]; omega
    rw [undo_past_length _ (List.ne_nil_of_length_pos hpos), ih hk]
    omega

lemma redo_undo_iterate (n : ℕ) (h : History) (hn : n ≤ h.past.length) :
    redo^[n] (undo^[n] h) = h := by
  induction n with
  | zero => simp
  | succ k ih =>
    have hk : k ≤ h.past.length := Nat.le_of_succ_le hn
    have hpos : 0 < (undo^[k] h).past.length := by
      rw [undo_iterate_past_length k h hk]; omega
    rw [show undo^[k + 1] h = undo (undo^[k] h) from Function.iterate_succ_apply' undo k h,
      show redo^[k + 1] (undo (undo^[k] h)) = redo^[k] (redo (undo (undo^[k] h))) from
        Function.iterate_succ_apply redo k _,
      redo_undo _ (List.ne_nil_of_length_pos hpos), ih hk]

lemma commitsSucceed_past_length (us : List EditorPayload) (h : History)
    (hs : commitsSucceed h us = true) :
    (applyCommits h us).past.length = h.past.length + us.length := by
  induction us generalizing h with
  | nil => simp [applyCommits]
  | cons u rest ih =>
    simp only [commitsSucceed, Bool.and_eq_true, bne_iff_ne] at hs
    have hstep : (updateEditorState h u).past.length = h.past.length + 1 := by
      simp [updateEditorState, if_neg hs.1]
    simp only [applyCommits, List.foldl_cons] at *
    rw [ih _ hs.2, hstep, List.length_cons]
    omega

/-- C1: after any sequence of successful commits, undoing n times and then
redoing n times (with no commit in between) restores the present snapshot
that held before the undos. -/
theorem undo_redo_roundtrip (h : History) (us : List EditorPayload)
    (hs : commitsSucceed h us = true) :
    (redo^[us.length] (undo^[us.length] (applyCommits h us))).present =
      (applyCommits h us).present := by
  have hlen : us.length ≤ (applyCommits h us).past.length := by
    rw [commitsSucceed_past_length us h hs]; omega
  rw [redo_undo_iterate us.length _ hlen]

def emptySnapshot : Snapshot := { pages := [], activePageIndex := 0 }

def emptyHistory : History :=
  { past := [], present := emptySnapshot, future := [] }

def switchPagePayload : EditorPayload := { pages := none, activePageIndex := some 1 }

/-- Witness for C1 at a concrete one-commit sequence. -/
theorem undo_redo_roundtrip_witness :
    commitsSucceed emptyHistory [switchPagePayload] = true ∧
      (redo^[1] (undo^[1] (applyCommits emptyHistory [switchPagePayload]))).present =
        (applyCommits emptyHistory [switchPagePayload]).present :=
  ⟨by decide, undo_redo_roundtrip emptyHistory [switchPagePayload] (by decide)⟩

/-- C2: a commit whose payload merged with the current present is deep-equal
to the present is a no-op: the resulting state is the input state, so in
particular the length of `past` and the contents of `future` are
unchanged. -/
theorem commit_deepEqual_noop (h : History) (u : EditorPayload)
    (heq : mergeSnapshot h.present u = h.present) :
    updateEditorState h u = h := by
  simp [updateEditorState, if_pos heq]

/-- Witness for C2: the empty payload always merges to the present itself. -/
theorem commit_deepEqual_noop_witness :
    mergeSnapshot emptyHistory.present { pages := none, activePageIndex := none } =
        emptyHistory.present ∧
      updateEditorState emptyHistory { pages := none, activePageIndex := none } =
        emptyHistory :=
  ⟨by decide,
    commit_deepEqual_noop emptyHistory { pages := none, activePageIndex := none } (by decide)⟩

def redoReadySnapshot : Snapshot := { pages := [], activePageIndex := 1 }

/-- A history with a pending redo entry, as left behind by one undo. -/
def historyWithFuture : History :=
  { past := [], present := emptySnapshot, future := [redoReadySnapshot] }

/-- Counterexample to C8 as stated: a commit whose merge is deep-equal to the
present (here the empty payload) is a no-op, so a non-empty `future` —
reachable by a preceding undo — survives the commit. -/
theorem commit_future_counterexample :
    (updateEditorState historyWithFuture
        { pages := none, activePageIndex := none }).future ≠ [] := by
  decide

/-- C8 amended: after any successful commit — one whose merged snapshot
differs from the current present — the `future` list of the resulting
history is empty. -/
theorem commit_clears_future (h : History) (u : EditorPayload)
    (hne : mergeSnapshot h.present u ≠ h.present) :
    (updateEditorState h u).future = [] := by
  simp [updateEditorState, if_neg hne]

/-- Witness for the amended C8 at a concrete successful commit. -/
theorem commit_clears_future_witness :
    mergeSnapshot emptyHistory.present switchPagePayload ≠ emptyHistory.present ∧
      (updateEditorState emptyHistory switchPagePayload).future = [] :=
  ⟨by decide, commit_clears_future emptyHistory switchPagePayload (by decide)⟩

/-- Index-aware map, the JS `array.map((x, i) => ...)` pattern used by
`updateActivePage` and `updatePage` in the source. -/
def mapWithIndex {α : Type} (f : Nat → α → α) : List α → List α
  | [] => []
  | x :: xs => f 0 x :: mapWithIndex (fun i a => f (i + 1) a) xs

lemma getElem?_mapWithIndex {α : Type} (f : ℕ → α → α) (l : List α) (i : ℕ) :
    (mapWithIndex f l)[i]? = (l[i]?).map (f i) := by
  induction l generalizing f i with
  | nil => simp [mapWithIndex]
  | cons x xs ih =>
    cases i with
    | zero => simp [mapWithIndex]
    | succ j => simp [mapWithIndex, ih]

/-- The `[pages, activePageIndex]` slice of the editor component state that
the page handlers read and write. -/
structure PagesState where
  pages : List Page
  activePageIndex : Nat
deriving DecidableEq

/-- The source's `updateActivePage(updates)` (lines 415-421): replace the page
at `activePageIndex` by the page merged with the partial record `updates`,
leaving every other page untouched.  The JS spread of a partial record is
modelled as applying the field updater `f`. -/
def updateActivePage (s : PagesState) (f : Page → Page) : PagesState :=
  { s with
    pages := mapWithIndex
      (fun i page => if i = s.activePageIndex then f page else page) s.pages }

/-- The source's `handleSaveVersion` (lines 634-641).  The guard
`!activePage || !activePage.generatedImage` is falsy for a missing page, a
null image, and the empty string; a current image already contained in
`versions` returns early, otherwise it is appended. -/
def handleSaveVersion (s : PagesState) : PagesState :=
  match s.pages[s.activePageIndex]? with
  | none => s
  | some activePage =>
    match activePage.generatedImage with
    | none => s
    | some img =>
      if img = "" then s
      else if img ∈ activePage.versions then s
      else updateActivePage s (fun page => { page with versions := activePage.versions ++ [img] })

lemma updateActivePage_getElem (s : PagesState) (f : Page → Page) (ap : Page)
    (hap : s.pages[s.activePageIndex]? = some ap) :
    (updateActivePage s f).pages[(updateActivePage s f).activePageIndex]? = some (f ap) := by
  show (mapWithIndex _ s.pages)[s.activePageIndex]? = _
  rw [getElem?_mapWithIndex, hap]
  simp

/-- C9: save-version is idempotent.  If the active page's current image is
already one of its versions the call leaves the state unchanged, and a second
call right after a first one is always a no-op, so `versions` never gains a
duplicate of the current image. -/
theorem saveVersion_idempotent (s : PagesState) :
    (∀ ap img, s.pages[s.activePageIndex]? = some ap → ap.generatedImage = some img →
      img ∈ ap.versions → handleSaveVersion s = s) ∧
    handleSaveVersion (handleSaveVersion s) = handleSaveVersion s := by
  constructor
  · intro ap img hap himg hmem
    simp only [handleSaveVersion, hap, himg]
    split <;> simp [hmem]
  · cases hap : s.pages[s.activePageIndex]? with
    | none => simp [handleSaveVersion, hap]
    | some ap =>
      cases himg : ap.generatedImage with
      | none => simp [handleSaveVersion, hap, himg]
      | some img =>
        by_cases h0 : img = ""
        · simp [handleSaveVersion, hap, himg, h0]
        · by_cases hmem : img ∈ ap.versions
          · simp [handleSaveVersion, hap, himg, h0, hmem]
          · have hs1 : handleSaveVersion s =
                updateActivePage s (fun page => { page with versions := ap.versions ++ [img] }) := by
              simp [handleSaveVersion, hap, himg, h0, hmem]
            rw [hs1]
            have h2 := updateActivePage_getElem s
              (fun page => { page with versions := ap.versions ++ [img] }) ap hap
            simp [handleSaveVersion, h2, himg, h0]

def masterPage : Page :=
  { id := "master", name := "Master", keywords := [], instructions := []
    generatedImage := none, versions := [], contextPageIds := [] }

def versionedPage : Page :=
  { id := "page-1", name := "Ideas", keywords := ["Brain", "Light"], instructions := []
    generatedImage := some "data:image/png;base64,AAA"
    versions := ["data:image/png;base64,AAA"], contextPageIds := [] }

def versionedState : PagesState :=
  { pages := [masterPage, versionedPage], activePageIndex := 1 }

/-- Witness for C9: saving a version whose image is already stored changes
nothing. -/
theorem saveVersion_idempotent_witness : handleSaveVersion versionedState = versionedState :=
  (saveVersion_idempotent versionedState).1 versionedPage "data:image/png;base64,AAA"
    rfl rfl (by decide)

/-- The JS `array.filter((_, i) => i !== d)`: drop exactly the element at
index `d`. -/
def filterOutIndex {α : Type} : List α → Nat → List α
  | [], _ => []
  | _ :: xs, 0 => xs
  | x :: xs, d + 1 => x :: filterOutIndex xs d

lemma filterOutIndex_eq_eraseIdx {α : Type} (l : List α) (d : ℕ) :
    filterOutIndex l d = l.eraseIdx d := by
  induction l generalizing d with
  | nil => rfl
  | cons x xs ih =>
    cases d with
    | zero => rfl
    | succ k => simp [filterOutIndex, List.eraseIdx, ih]

/-- The source's `handleDeletePage` (lines 610-632): a delete of index 0 or a
cancelled confirmation dialog is a no-op; otherwise the page at
`indexToDelete` is removed and `activePageIndex` is adjusted — to
`max(0, indexToDelete - 1)` when the active page itself was deleted,
decremented when a page before it was deleted, and kept otherwise. -/
def handleDeletePage (s : PagesState) (indexToDelete : Nat) (confirmed : Bool) : PagesState :=
  if indexToDelete = 0 ∨ confirmed = false then s
  else
    { pages := filterOutIndex s.pages indexToDelete
      activePageIndex :=
        if indexToDelete = s.activePageIndex then max 0 (indexToDelete - 1)
        else if indexToDelete < s.activePageIndex then s.activePageIndex - 1
        else s.activePageIndex }

/-- C10: deleting a confirmed, non-zero, in-range page keeps
`activePageIndex` a valid index of the remaining pages, and the page it
designates is unchanged whenever the deleted page was not the active one. -/
theorem deletePage_active_index_valid (s : PagesState) (d : ℕ)
    (hA : s.activePageIndex < s.pages.length)
    (hd0 : 0 < d) (hdl : d < s.pages.length) :
    (handleDeletePage s d true).activePageIndex < (handleDeletePage s d true).pages.length ∧
      (d ≠ s.activePageIndex →
        (handleDeletePage s d true).pages[(handleDeletePage s d true).activePageIndex]? =
          s.pages[s.activePageIndex]?) := by
  have hcond : ¬(d = 0 ∨ (true : Bool) = false) := by simp; omega
  simp only [handleDeletePage, if_neg hcond, filterOutIndex_eq_eraseIdx]
  have hlen : (s.pages.eraseIdx d).length = s.pages.length - 1 := by
    rw [List.length_eraseIdx]
    simp [hdl]
  constructor
  · rw [hlen]
    simp only [Nat.zero_max]
    split_ifs <;> omega
  · intro hne
    rw [if_neg hne]
    by_cases hlt : d < s.activePageIndex
    · rw [if_pos hlt, List.getElem?_eraseIdx, if_neg (by omega)]
      congr 1
      omega
    · rw [if_neg hlt, List.getElem?_eraseIdx, if_pos (by omega)]

def extraPage : Page :=
  { id := "page-2", name := "Extra", keywords := [], instructions := []
    generatedImage := none, versions := [], contextPageIds := [] }

def threePagesState : PagesState :=
  { pages := [masterPage, versionedPage, extraPage], activePageIndex := 1 }

/-- Witness for C10: deleting page 2 while page 1 is active leaves the active
page designating the same page as before. -/
theorem deletePage_active_index_valid_witness :
    (handleDeletePage threePagesState 2 true).pages[
        (handleDeletePage threePagesState 2 true).activePageIndex]? =
      threePagesState.pages[threePagesState.activePageIndex]? :=
  (deletePage_active_index_valid threePagesState 2 (by decide) (by decide) (by decide)).2
    (by decide)

/-- The two generation modes of `generateMindMap`. -/
inductive GenMode where
  | evolve
  | rethink
deriving DecidableEq

/-- The ephemeral focus selection (`focusedItems` state): indices into the
active page's keyword and instruction lists. -/
structure FocusedItems where
  keywords : List Nat
  instructions : List Nat
deriving DecidableEq

/-- The JS `Array.prototype.join(sep)`: empty string for an empty array,
otherwise the elements interleaved with the separator. -/
def joinSep (sep : String) : List String → String
  | [] => ""
  | [s] => s
  | s :: ss => s ++ sep ++ joinSep sep ss

/-- JS indexing `arr[i]` inside a template literal: an in-range element, or
the text "undefined" when the index is stale/out of range. -/
def jsIndex (l : List String) (i : Nat) : String := l.getD i "undefined"

/-- Substring containment: `sub` occurs verbatim inside `big`. -/
def strContains (big sub : String) : Prop := ∃ pre post, big = pre ++ sub ++ post

lemma strContains_append_left {a s : String} (b : String) (h : strContains a s) :
    strContains (a ++ b) s := by
  obtain ⟨p, q, rfl⟩ := h
  exact ⟨p, q ++ b, by simp [String.append_assoc]⟩

lemma strContains_append_right (a : String) {b s : String} (h : strContains b s) :
    strContains (a ++ b) s := by
  obtain ⟨p, q, rfl⟩ := h
  exact ⟨a ++ p, q, by simp [String.append_assoc]⟩

lemma strContains_empty (big : String) : strContains big "" :=
  ⟨"", big, by simp [String.empty_append]⟩

lemma strContains_self (s : String) : strContains s s :=
  ⟨"", "", by simp [String.empty_append, String.append_empty]⟩

lemma joinSep_contains (sep : String) (l : List String) (s : String) (h : s ∈ l) :
    strContains (joinSep sep l) s := by
  induction l with
  | nil => cases h
  | cons x xs ih =>
    cases xs with
    | nil =>
      rw [List.mem_singleton.mp h]
      exact strContains_self x
    | cons y ys =>
      rcases List.mem_cons.mp h with hx | hmem
      · subst hx
        exact strContains_append_left _ (strContains_append_left _ (strContains_self s))
      · exact strContains_append_right _ (ih hmem)

lemma string_eq_empty_of_length (s : String) (h : s.length = 0) : s = "" := by
  have hd : s.data = [] := List.length_eq_zero.mp h
  cases s
  simp_all

lemma append_ne_empty_left (a b : String) (ha : a ≠ "") : a ++ b ≠ "" := by
  intro h
  apply ha
  have hl := congrArg String.length h
  rw [String.length_append, show ("" : String).length = 0 from rfl] at hl
  exact string_eq_empty_of_length a (by omega)

lemma joinSep_empty_members (sep : String) (hsep : sep.length ≠ 0) (l : List String)
    (hj : joinSep sep l = "") : ∀ s ∈ l, s = "" := by
  intro s hs
  match l, hs with
  | [x], hs =>
    rw [List.mem_singleton.mp hs]
    exact hj
  | x :: y :: ys, hs =>
    exfalso
    have hl := congrArg String.length hj
    rw [show joinSep sep (x :: y :: ys) = x ++ sep ++ joinSep sep (y :: ys) from rfl,
      String.length_append, String.length_append] at hl
    simp at hl
    omega

/-- The fixed opening of the master-page prompt (lines 2023-2024). -/
def masterBase : String :=
  "YOUR TASK IS TO CREATE A MASTER MIND MAP. Synthesize all concepts from all the user's pages into one single, cohesive drawing. Identify and visualize the connections, overlaps, and high-level themes between them. The final drawing must be a unified \"brain\" of the entire project."

/-- The per-page fragment appended for each non-master page with keywords
(lines 2029-2033). -/
def masterSegment (page : Page) : String :=
  "\n\n- On page \"" ++ page.name ++ "\", the core concepts are: \"" ++
    joinSep ", " page.keywords ++ "\". The instructions were: \"" ++
    joinSep ". " page.instructions ++ "\"."

/-- The evolve-mode suffix of the master prompt (lines 2037-2040). -/
def masterEvolveClause : String :=
  "\n\nEvolve the previous master drawing with this complete context. Do not start from scratch."

/-- The master branch of the prompt composition in `generateMindMap`
(lines 2022-2040): iterate the non-master pages in document order, append a
fragment for each page with a non-empty keyword list, and close with the
evolve clause when the mode is evolve. -/
def composeMasterPrompt (pages : List Page) (mode : GenMode) : String :=
  let masterContext := (pages.filter (fun p => p.id != "master")).foldl
    (fun acc page => if page.keywords.length > 0 then acc ++ masterSegment page else acc)
    masterBase
  if mode = GenMode.evolve then masterContext ++ masterEvolveClause else masterContext

/-- The mandatory-coverage clause opening every non-master prompt
(line 2045). -/
def goldenRuleClause (activePage : Page) : String :=
  "GOLDEN RULE: YOU MUST REPRESENT 100% OF ALL KEYWORDS AND FOLLOW 100% OF ALL INSTRUCTIONS for the page \"" ++
    activePage.name ++
    "\". No concept can be ignored. Use simple icons, text labels, and arrows. Maintain the hand-drawn, minimalist style unless an instruction says otherwise."

/-- The mode clause (lines 2047-2051). -/
def ruleTwoClause (mode : GenMode) (activePage : Page) : String :=
  match mode with
  | GenMode.evolve =>
    "\n\nRULE 2: EVOLVE, DO NOT RESTART. Evolve the provided drawing for page \"" ++
      activePage.name ++
      "\". Integrate all keywords and instructions by modifying, adding to, or refining the existing visual elements."
  | GenMode.rethink =>
    "\n\nRULE 2: START FRESH. Generate a completely new mind map for page \"" ++
      activePage.name ++ "\" from a blank canvas, synthesizing all keywords and instructions."

def focusHeader : String :=
  "\n\nCRITICAL FOCUS FOR THIS UPDATE: The user has specifically highlighted the following items. Give them maximum priority:"

def focusedKeywordsLine (focusedKeywords : List String) : String :=
  "\n- Focused Keywords: \"" ++ joinSep "\", \"" focusedKeywords ++ "\""

def focusedInstructionsLine (focusedInstructions : List String) : String :=
  "\n- Focused Instructions: \"" ++ joinSep "\", \"" focusedInstructions ++ "\""

def contextHeader : String :=
  "\n\nADDITIONAL CONTEXT: Use the following page(s) as inspiration. Find visual connections and synergies with the current page's concepts."

/-- The fragment appended for each resolvable context page
(lines 2080-2086). -/
def contextSegment (contextPage : Page) : String :=
  "\n- From page \"" ++ contextPage.name ++ "\": Core concepts are \"" ++
    joinSep ", " contextPage.keywords ++ "\". Key instructions were: \"" ++
    joinSep ". " contextPage.instructions ++ "\"."

/-- The `forEach` over `contextPageIds` (lines 2077-2088): ids that no longer
resolve to a page are skipped. -/
def contextFold (pages : List Page) (ids : List String) (acc : String) : String :=
  ids.foldl
    (fun acc pageId =>
      match pages.find? (fun p => p.id == pageId) with
      | some contextPage => acc ++ contextSegment contextPage
      | none => acc)
    acc

def instructionsSummary (allInstructions : String) : String :=
  "\n\nOverall instructions to follow: \"" ++ allInstructions ++ "\"."

def keywordsSummary (allKeywords : String) : String :=
  "\n\nAll concepts to include: \"" ++ allKeywords ++ "\"."

/-- The non-master branch of the prompt composition in `generateMindMap`
(lines 2042-2095), as the source's sequence of conditional appends: golden
rule, mode rule, optional focus block, optional cross-page context block,
optional instruction summary (the joined instruction string is falsy exactly
when it is empty), and the keyword summary. -/
def composeNonMasterPrompt (pages : List Page) (activePage : Page) (mode : GenMode)
    (focus : FocusedItems) : String :=
  let allKeywords := joinSep ", " activePage.keywords
  let allInstructions := joinSep ". " activePage.instructions
  let focusedKeywords := focus.keywords.map (jsIndex activePage.keywords)
  let focusedInstructions := focus.instructions.map (jsIndex activePage.instructions)
  let p1 := goldenRuleClause activePage
  let p2 := p1 ++ ruleTwoClause mode activePage
  let p3 :=
    if focusedKeywords.length > 0 ∨ focusedInstructions.length > 0 then
      let q1 := p2 ++ focusHeader
      let q2 :=
        if focusedKeywords.length > 0 then q1 ++ focusedKeywordsLine focusedKeywords else q1
      if focusedInstructions.length > 0 then q2 ++ focusedInstructionsLine focusedInstructions
      else q2
    else p2
  let p4 :=
    if activePage.contextPageIds.length > 0 then
      p3 ++ contextFold pages activePage.contextPageIds contextHeader
    else p3
  let p5 := if allInstructions ≠ "" then p4 ++ instructionsSummary allInstructions else p4
  p5 ++ keywordsSummary allKeywords

/-- The focus-priority clause as a standalone block (empty when no item is
focused). -/
def focusClause (activePage : Page) (focus : FocusedItems) : String :=
  let focusedKeywords := focus.keywords.map (jsIndex activePage.keywords)
  let focusedInstructions := focus.instructions.map (jsIndex activePage.instructions)
  if focusedKeywords.length > 0 ∨ focusedInstructions.length > 0 then
    focusHeader ++
      (if focusedKeywords.length > 0 then focusedKeywordsLine focusedKeywords else "") ++
      (if focusedInstructions.length > 0 then focusedInstructionsLine focusedInstructions
       else "")
  else ""

/-- The cross-page-context clause as a standalone block (empty when
`contextPageIds` is empty). -/
def contextClause (pages : List Page) (activePage : Page) : String :=
  if activePage.contextPageIds.length > 0 then
    contextFold pages activePage.contextPageIds contextHeader
  else ""

/-- The instruction-summary clause as a standalone block (omitted when the
joined instruction string is empty). -/
def instrSummaryClause (activePage : Page) : String :=
  if joinSep ". " activePage.instructions ≠ "" then
    instructionsSummary (joinSep ". " activePage.instructions)
  else ""

/-- The keyword-summary clause, always present. -/
def kwSummaryClause (activePage : Page) : String :=
  keywordsSummary (joinSep ", " activePage.keywords)

lemma composeNonMasterPrompt_decomp (pages : List Page) (activePage : Page) (mode : GenMode)
    (focus : FocusedItems) :
    composeNonMasterPrompt pages activePage mode focus =
      goldenRuleClause activePage ++ ruleTwoClause mode activePage ++
        focusClause activePage focus ++ contextClause pages activePage ++
        instrSummaryClause activePage ++ kwSummaryClause activePage := by
  simp only [composeNonMasterPrompt, focusClause, contextClause, instrSummaryClause,
    kwSummaryClause]
  split_ifs <;>
    simp [String.append_assoc, String.append_empty, String.empty_append]

lemma contextFold_append (ids : List String) (pages : List Page) :
    ∀ acc : String, ∃ t, contextFold pages ids acc = acc ++ t := by
  induction ids with
  | nil => exact fun acc => ⟨"", (String.append_empty acc).symm⟩
  | cons i rest ih =>
    intro acc
    have hstep : contextFold pages (i :: rest) acc = contextFold pages rest
        (match pages.find? (fun p => p.id == i) with
         | some contextPage => acc ++ contextSegment contextPage
         | none => acc) := rfl
    rw [hstep]
    cases hf : pages.find? (fun p => p.id == i) with
    | none =>
      simp only [hf]
      exact ih acc
    | some cp =>
      simp only [hf]
      obtain ⟨t, ht⟩ := ih (acc ++ contextSegment cp)
      exact ⟨contextSegment cp ++ t, by rw [ht, String.append_assoc]⟩

/-- C5: the non-master prompt is exactly the ordered concatenation
coverage-rule, mode-rule, focus-priority, cross-page-context,
instruction-summary, keyword-summary, where the focus block is present
exactly when some focus set is non-empty and the context block exactly when
`contextPageIds` is non-empty. -/
theorem nonMasterPrompt_clause_order (pages : List Page) (activePage : Page) (mode : GenMode)
    (focus : FocusedItems) :
    composeNonMasterPrompt pages activePage mode focus =
      goldenRuleClause activePage ++ ruleTwoClause mode activePage ++
        focusClause activePage focus ++ contextClause pages activePage ++
        instrSummaryClause activePage ++ kwSummaryClause activePage ∧
    (focusClause activePage focus = "" ↔ focus.keywords = [] ∧ focus.instructions = []) ∧
    (contextClause pages activePage = "" ↔ activePage.contextPageIds = []) := by
  refine ⟨composeNonMasterPrompt_decomp pages activePage mode focus, ?_, ?_⟩
  · simp only [focusClause]
    by_cases hcond : (focus.keywords.map (jsIndex activePage.keywords)).length > 0 ∨
        (focus.instructions.map (jsIndex activePage.instructions)).length > 0
    · rw [if_pos hcond]
      refine iff_of_false (append_ne_empty_left _ _ (append_ne_empty_left _ _ (by decide))) ?_
      rintro ⟨hk, hi⟩
      simp [hk, hi] at hcond
    · rw [if_neg hcond]
      simp only [not_or, Nat.not_lt, Nat.le_zero, List.length_map,
        List.length_eq_zero] at hcond
      exact iff_of_true rfl hcond
  · simp only [contextClause]
    by_cases hctx : activePage.contextPageIds.length > 0
    · rw [if_pos hctx]
      obtain ⟨t, ht⟩ := contextFold_append activePage.contextPageIds pages contextHeader
      rw [ht]
      refine iff_of_false (append_ne_empty_left _ _ (by decide)) ?_
      intro h
      simp [h] at hctx
    · rw [if_neg hctx]
      exact iff_of_true rfl (List.eq_nil_of_length_eq_zero (Nat.le_zero.mp (Nat.not_lt.mp hctx)))

lemma masterFold_skips_empty (l : List Page) (acc : String) :
    ((l.filter (fun p => !p.keywords.isEmpty)).filter (fun p => p.id != "master")).foldl
        (fun acc page => if page.keywords.length > 0 then acc ++ masterSegment page else acc)
        acc
      = (l.filter (fun p => p.id != "master")).foldl
        (fun acc page => if page.keywords.length > 0 then acc ++ masterSegment page else acc)
        acc := by
  induction l generalizing acc with
  | nil => rfl
  | cons p rest ih =>
    by_cases hk : p.keywords = []
    · by_cases hid : p.id = "master"
      · simp only [List.filter_cons, hk, hid]
        simp only [List.isEmpty_nil, Bool.not_true, if_false, bne_self_eq_false]
        exact ih acc
      · simp only [List.filter_cons, hk, List.isEmpty_nil, Bool.not_true, if_false]
        have hbne : (p.id != "master") = true := by simp [hid]
        simp only [hbne, if_true]
        rw [List.foldl_cons]
        simp only [hk, List.length_nil, Nat.lt_irrefl, if_false]
        exact ih acc
    · have hne : (!p.keywords.isEmpty) = true := by
        simp [List.isEmpty_iff, hk]
      simp only [List.filter_cons, hne, if_true]
      by_cases hid : p.id = "master"
      · simp only [hid, bne_self_eq_false, if_false]
        exact ih acc
      · have hbne : (p.id != "master") = true := by simp [hid]
        simp only [hbne, if_true, List.foldl_cons]
        exact ih _

/-- C4: the master prompt is unchanged when every page with an empty keyword
list is removed from the input (such pages are excluded from the composed
prompt), and the non-master prompt contains, verbatim, every keyword and
every instruction string of the target page. -/
theorem prompt_completeness (pages : List Page) (activePage : Page) (mode : GenMode)
    (focus : FocusedItems) :
    composeMasterPrompt (pages.filter (fun p => !p.keywords.isEmpty)) mode =
        composeMasterPrompt pages mode ∧
      (∀ s ∈ activePage.keywords,
        strContains (composeNonMasterPrompt pages activePage mode focus) s) ∧
      (∀ s ∈ activePage.instructions,
        strContains (composeNonMasterPrompt pages activePage mode focus) s) := by
  refine ⟨?_, ?_, ?_⟩
  · simp only [composeMasterPrompt]
    rw [masterFold_skips_empty]
  · intro s hs
    rw [composeNonMasterPrompt_decomp]
    refine strContains_append_right _ ?_
    unfold kwSummaryClause keywordsSummary
    exact strContains_append_left _ (strContains_append_right _ (joinSep_contains _ _ _ hs))
  · intro s hs
    by_cases hj : joinSep ". " activePage.instructions = ""
    · rw [joinSep_empty_members ". " (by decide) _ hj s hs]
      exact strContains_empty _
    · rw [composeNonMasterPrompt_decomp]
      apply strContains_append_left
      apply strContains_append_right
      unfold instrSummaryClause
      rw [if_pos hj]
      unfold instructionsSummary
      exact strContains_append_left _ (strContains_append_right _ (joinSep_contains _ _ _ hs))

/-- Witness for C4: the keyword "Brain" of the demo page occurs verbatim in
its composed prompt. -/
theorem prompt_completeness_witness :
    strContains
      (composeNonMasterPrompt [masterPage, versionedPage] versionedPage GenMode.rethink
        { keywords := [], instructions := [] })
      "Brain" :=
  (prompt_completeness [masterPage, versionedPage] versionedPage GenMode.rethink
      { keywords := [], instructions := [] }).2.1 "Brain" (by decide)

/-- Outcome of the awaited AI backend call (`ai.models.generateContent`):
either it resolves — carrying the optional inline image payload extracted at
lines 2111-2113 (an absent or empty payload is falsy) — or it throws. -/
inductive BackendResponse where
  | success (imageData : Option String)
  | threw (message : String)

/-- The browser-side inputs of one generate call: the current canvas
rendering (`canvasRef.current`, `none` when the ref is null) and whether the
scratch canvas used for the blank base yields a 2d context (lines
2007-2014; when it does not, the call returns after clearing the loading
flag). -/
structure GenEnv where
  canvasData : Option String
  tempCtxOk : Bool

/-- The editor state read by `generateMindMap`. -/
structure EditorUiState where
  pages : List Page
  activePageIndex : Nat
  focusedItems : FocusedItems

/-- What one `generateMindMap` invocation leaves behind: the pages list, the
focus sets, the error message reported during the call (if any), and how
many AI backend calls were made. -/
structure GenResult where
  pages : List Page
  focusedItems : FocusedItems
  errorMessage : Option String
  networkCalls : Nat
deriving DecidableEq

/-- The validation failure reported for a non-master page with no keywords
(lines 1971-1978). -/
def validationErrorMsg : String :=
  "Por favor, adicione pelo menos uma palavra-chave a esta página antes de gerar o desenho."

/-- The failure reported when the backend resolves without an image payload
(lines 2119-2122). -/
def noImageErrorMsg : String := "A IA não retornou uma imagem. Por favor, tente novamente."

/-- The source's `parseError` digs a message out of an embedded JSON error
envelope and falls back to the raw text; no claim depends on the extraction,
so the reported text is modelled as the raw message. -/
def parseErrorMessage (message : String) : String := message

/-- Placeholder for the base64 payload of the freshly filled white scratch
canvas (lines 2007-2017); its contents never influence the modelled
behaviour. -/
def blankCanvasData : String := "blank-white-canvas-png"

/-- JS truthiness of the optional image strings involved (`null`/absent and
the empty string are falsy). -/
def strTruthy : Option String → Bool
  | none => false
  | some s => s != ""

/-- The `updatePage({generatedImage: imageUrl})` call of the success branch
(lines 1963-1968, 2115-2117): replace the active page's `generatedImage`,
leaving other pages untouched. -/
def updatePageImage (pages : List Page) (activePageIndex : Nat) (imageUrl : String) :
    List Page :=
  mapWithIndex
    (fun i page =>
      if i = activePageIndex then { page with generatedImage := some imageUrl } else page)
    pages

/-- The source's `generateMindMap` (lines 1970-2135).  The result is `none`
when `pages[activePageIndex]` is undefined (the JS code would throw
dereferencing `activePage.id`).  Otherwise: the empty-keyword validation for
non-master pages aborts before any I/O with the focus sets untouched; past
the validation the focus sets are cleared (`setFocusedItems` at line 1996 —
the prompt still uses the pre-clear values captured by the closure); the
base image is the canvas rendering (evolve mode with a truthy current image
and a live canvas) or a blank canvas (aborting without error if no 2d
context); then the single backend call is made and its outcome handled:
thrown error reported via `parseError`, missing/empty image payload reported
as the no-image failure with the document unchanged, and an image payload
committed into the active page's `generatedImage`. -/
def generateMindMap (mode : GenMode) (env : GenEnv)
    (backend : String → String → BackendResponse) (st : EditorUiState) : Option GenResult :=
  match st.pages[st.activePageIndex]? with
  | none => none
  | some activePage =>
    if activePage.id ≠ "master" ∧ activePage.keywords = [] then
      some { pages := st.pages, focusedItems := st.focusedItems
             errorMessage := some validationErrorMsg, networkCalls := 0 }
    else
      let drawingData? : Option String :=
        if mode = GenMode.evolve ∧ strTruthy activePage.generatedImage = true ∧
            env.canvasData.isSome then
          env.canvasData
        else if env.tempCtxOk then some blankCanvasData else none
      match drawingData? with
      | none =>
        some { pages := st.pages, focusedItems := { keywords := [], instructions := [] }
               errorMessage := none, networkCalls := 0 }
      | some drawingData =>
        let aiPrompt :=
          if activePage.id = "master" then composeMasterPrompt st.pages mode
          else composeNonMasterPrompt st.pages activePage mode st.focusedItems
        match backend drawingData aiPrompt with
        | BackendResponse.threw message =>
          some { pages := st.pages, focusedItems := { keywords := [], instructions := [] }
                 errorMessage := some (parseErrorMessage message), networkCalls := 1 }
        | BackendResponse.success imageData =>
          if strTruthy imageData = true then
            some { pages := updatePageImage st.pages st.activePageIndex
                     ("data:image/png;base64," ++ imageData.getD "")
                   focusedItems := { keywords := [], instructions := [] }
                   errorMessage := none, networkCalls := 1 }
          else
            some { pages := st.pages, focusedItems := { keywords := [], instructions := [] }
                   errorMessage := some noImageErrorMsg, networkCalls := 1 }

/-- C3: a generate call on a non-master page with an empty keyword list, in
either mode, reports the validation failure and returns before any I/O: no
backend call is made, the pages are unchanged, and the focus sets are left
as they were. -/
theorem generate_validation_aborts (mode : GenMode) (env : GenEnv)
    (backend : String → String → BackendResponse) (st : EditorUiState) (activePage : Page)
    (hap : st.pages[st.activePageIndex]? = some activePage)
    (hid : activePage.id ≠ "master") (hkw : activePage.keywords = []) :
    generateMindMap mode env backend st =
      some { pages := st.pages, focusedItems := st.focusedItems
             errorMessage := some validationErrorMsg, networkCalls := 0 } := by
  simp [generateMindMap, hap, hid, hkw]

/-- Witness for C3 on a concrete state whose active page has no keywords. -/
theorem generate_validation_aborts_witness :
    generateMindMap GenMode.rethink { canvasData := none, tempCtxOk := true }
        (fun _ _ => BackendResponse.success none)
        { pages := [masterPage, extraPage], activePageIndex := 1
          focusedItems := { keywords := [], instructions := [] } } =
      some { pages := [masterPage, extraPage]
             focusedItems := { keywords := [], instructions := [] }
             errorMessage := some validationErrorMsg, networkCalls := 0 } :=
  generate_validation_aborts GenMode.rethink { canvasData := none, tempCtxOk := true }
    (fun _ _ => BackendResponse.success none)
    { pages := [masterPage, extraPage], activePageIndex := 1
      focusedItems := { keywords := [], instructions := [] } }
    extraPage rfl (by decide) rfl

/-- C6: when the backend call resolves without an image payload, the pages —
in particular the target page's `generatedImage` — are exactly as before the
call, and the distinct no-image failure message is reported. -/
theorem generate_noImage_frame (mode : GenMode) (env : GenEnv)
    (backend : String → String → BackendResponse) (st : EditorUiState) (activePage : Page)
    (hap : st.pages[st.activePageIndex]? = some activePage)
    (hvalid : ¬(activePage.id ≠ "master" ∧ activePage.keywords = []))
    (hctx : env.tempCtxOk = true)
    (hbackend : ∀ d p, backend d p = BackendResponse.success none) :
    generateMindMap mode env backend st =
      some { pages := st.pages, focusedItems := { keywords := [], instructions := [] }
             errorMessage := some noImageErrorMsg, networkCalls := 1 } := by
  simp only [generateMindMap, hap]
  rw [if_neg hvalid]
  by_cases hc : mode = GenMode.evolve ∧ strTruthy activePage.generatedImage = true ∧
      env.canvasData.isSome
  · obtain ⟨d, hd⟩ := Option.isSome_iff_exists.mp hc.2.2
    rw [if_pos hc, hd]
    simp [hbackend, strTruthy]
  · simp only [if_neg hc, hctx, if_true]
    simp [hbackend, strTruthy]

def liveEditorState : EditorUiState :=
  { pages := [masterPage, versionedPage], activePageIndex := 1
    focusedItems := { keywords := [2], instructions := [] } }

/-- Witness for C6 on a concrete state and an always-imageless backend. -/
theorem generate_noImage_frame_witness :
    generateMindMap GenMode.rethink { canvasData := none, tempCtxOk := true }
        (fun _ _ => BackendResponse.success none) liveEditorState =
      some { pages := liveEditorState.pages
             focusedItems := { keywords := [], instructions := [] }
             errorMessage := some noImageErrorMsg, networkCalls := 1 } :=
  generate_noImage_frame GenMode.rethink { canvasData := none, tempCtxOk := true }
    (fun _ _ => BackendResponse.success none) liveEditorState versionedPage rfl (by decide) rfl
    (fun _ _ => rfl)

def stuckFocusState : EditorUiState :=
  { pages := [masterPage, extraPage], activePageIndex := 1
    focusedItems := { keywords := [0], instructions := [] } }

/-- Counterexample to C7 as stated: when the empty-keyword validation
rejects the call, `generateMindMap` returns before `setFocusedItems`, so a
non-empty focus set survives the invocation. -/
theorem generate_focus_counterexample :
    (generateMindMap GenMode.rethink { canvasData := none, tempCtxOk := true }
          (fun _ _ => BackendResponse.success none) stuckFocusState).map
        GenResult.focusedItems =
      some { keywords := [0], instructions := [] } ∧
    ({ keywords := [0], instructions := [] } : FocusedItems) ≠
      { keywords := [], instructions := [] } :=
  ⟨rfl, by decide⟩

/-- C7 amended: every generate invocation that passes the empty-keyword
validation — whatever the outcome: success, backend error, no-image result,
or the missing-2d-context abort — finishes with both focus sets empty. -/
theorem generate_clears_focus (mode : GenMode) (env : GenEnv)
    (backend : String → String → BackendResponse) (st : EditorUiState) (activePage : Page)
    (r : GenResult)
    (hap : st.pages[st.activePageIndex]? = some activePage)
    (hvalid : ¬(activePage.id ≠ "master" ∧ activePage.keywords = []))
    (hr : generateMindMap mode env backend st = some r) :
    r.focusedItems = { keywords := [], instructions := [] } := by
  simp only [generateMindMap, hap] at hr
  rw [if_neg hvalid] at hr
  split at hr
  · injection hr with h
    subst h
    rfl
  · split at hr
    · injection hr with h
      subst h
      rfl
    · split at hr
      · injection hr with h
        subst h
        rfl
      · injection hr with h
        subst h
        rfl

/-- Witness for the amended C7: a call that passes validation ends with the
focus sets cleared. -/
theorem generate_clears_focus_witness :
    ({ pages := [masterPage, versionedPage]
       focusedItems := { keywords := [], instructions := [] }
       errorMessage := some noImageErrorMsg, networkCalls := 1 } : GenResult).focusedItems =
      { keywords := [], instructions := [] } :=
  generate_clears_focus GenMode.rethink { canvasData := none, tempCtxOk := true }
    (fun _ _ => BackendResponse.success none) liveEditorState versionedPage _ rfl (by decide)
    rfl
